import Mathlib

/-!
Verification of the metadata-enrichment and caching subsystem of the
ani-cli FastAPI service (`src/app/cache.py`, `src/app/utils.py`,
`src/app/routes/search.py`, `src/app/routes/anime.py`,
`src/app/routes/popular.py`), as a shallow embedding in Lean 4.

Python values that may be `None` are modelled as `Option`; time
(`time.monotonic()`) is an explicit `Nat` parameter; the insertion-ordered
Python `dict` backing the cache is an association list.
-/

namespace AniCli

/-! ## TTL cache (`src/app/cache.py`)

`_Entry` is the frozen dataclass `{expires_at, value}`.  The stored value is
itself a Python object that may be `None`, hence `Option V`. -/

structure Entry (V : Type) where
  expiresAt : Nat
  value : Option V
  deriving DecidableEq, Repr

/-- `TTLCache.__init__`: ttl, maxsize and the insertion-ordered dict. -/
structure TTLCache (K V : Type) where
  ttl : Nat
  maxsize : Nat
  data : List (K × Entry V)
  deriving DecidableEq, Repr

/-- `self._data.get(key)`: first binding for `k`, if any. -/
def lookupKey {K V : Type} [DecidableEq K] (l : List (K × Entry V)) (k : K) :
    Option (Entry V) :=
  match l with
  | [] => none
  | p :: rest => if p.1 = k then some p.2 else lookupKey rest k

/-- `self._data.pop(key, None)` (the dict afterwards). -/
def removeKey {K V : Type} [DecidableEq K] (l : List (K × Entry V)) (k : K) :
    List (K × Entry V) :=
  match l with
  | [] => []
  | p :: rest => if p.1 = k then rest else p :: removeKey rest k

/-- `self._data[key] = entry`: overwrite in place if the key exists
(Python dicts keep the original position), else append. -/
def dictSet {K V : Type} [DecidableEq K] (l : List (K × Entry V)) (k : K)
    (e : Entry V) : List (K × Entry V) :=
  if l.any (fun p => p.1 = k) then
    l.map (fun p => if p.1 = k then (k, e) else p)
  else
    l ++ [(k, e)]

/-- `TTLCache.get` (cache.py lines 30-39): returns the stored value if the
key is present and unexpired; an expired entry is popped and `None` is
returned.  The `now` argument is `time.monotonic()`. -/
def TTLCache.get {K V : Type} [DecidableEq K] (c : TTLCache K V) (now : Nat)
    (k : K) : Option V × TTLCache K V :=
  match lookupKey c.data k with
  | none => (none, c)
  | some e =>
    if e.expiresAt ≤ now then (none, { c with data := removeKey c.data k })
    else (e.value, c)

/-- The purge loop of `TTLCache.set` (cache.py lines 44-47): drop every
entry with `expires_at <= now`, preserving order. -/
def purgeExpired {K V : Type} (now : Nat) (l : List (K × Entry V)) :
    List (K × Entry V) :=
  l.filter (fun p => decide (now < p.2.expiresAt))

/-- The size-cap loop of `TTLCache.set` (cache.py lines 50-51):
`while len(self._data) >= self._maxsize: self._data.pop(next(iter(self._data)))`,
i.e. drop the oldest-inserted binding while the dict is at or over capacity.
(With `maxsize = 0` and an empty dict the Python loop would raise
`StopIteration`; that configuration is never used and the theorems below
assume `1 ≤ maxsize`.) -/
def evictLoop {K V : Type} (m : Nat) : List (K × Entry V) → List (K × Entry V)
  | [] => []
  | p :: rest => if m ≤ (p :: rest).length then evictLoop m rest else p :: rest

/-- `TTLCache.set` (cache.py lines 41-53): purge expired entries, evict until
below capacity, then bind `key` to `_Entry(expires_at=now + ttl, value)`. -/
def TTLCache.set {K V : Type} [DecidableEq K] (c : TTLCache K V) (now : Nat)
    (k : K) (v : Option V) : TTLCache K V :=
  let purged := purgeExpired now c.data
  let capped := evictLoop c.maxsize purged
  { c with data := dictSet capped k ⟨now + c.ttl, v⟩ }

/-- `TTLCache.get_or_set` (cache.py lines 55-61).  The returned `Bool`
records whether `factory` was invoked (the `cached is not None` test fails
both on a miss and on a stored `None`). -/
def TTLCache.getOrSet {K V : Type} [DecidableEq K] (c : TTLCache K V)
    (now : Nat) (k : K) (factory : Unit → Option V) :
    Option V × TTLCache K V × Bool :=
  match c.get now k with
  | (some v, c1) => (some v, c1, false)
  | (none, c1) =>
    let v := factory ()
    (v, c1.set now k v, true)

/-! ## Catalog entries and the per-item enrichment pipeline
(`src/app/routes/search.py`, `src/app/routes/anime.py`,
`src/app/routes/popular.py`) -/

/-- The `available_episodes` dict of a provider result, keyed by the two
languages the provider knows (`"sub"`, `"dub"`); each count is `None` or an
int (`isinstance(c, int)` filters in the routes). -/
structure EpisodeCounts where
  sub : Option Nat
  dub : Option Nat
  deriving DecidableEq, Repr

/-- A raw entry from the primary catalog source, as the routes read it
(`result.name`, `result.identifier`, `result.image`, `result.languages`,
`item["genres"]`, `available_episodes`). -/
structure CatalogEntry where
  identifier : String
  name : String
  image : Option String
  languages : List String
  genres : Option (List String)
  availableEpisodes : Option EpisodeCounts
  deriving DecidableEq, Repr

/-- The four memoized provider lookups of `src/app/utils.py` as the routes
see them: pure best-effort functions from a title to an optional value. -/
structure Providers where
  jikanImage : String → Option String
  jikanTotalEpisodes : String → Option Nat
  anilistScore : String → Option ℚ
  kitsuAgeRating : String → Option String

/-- Which enrichment providers one per-item pipeline run invoked. -/
structure CallLog where
  epsCalled : Bool
  imageCalled : Bool
  scoreCalled : Bool
  ageCalled : Bool
  deriving DecidableEq, Repr

/-- The episode-count derivation shared by `build_result` (search.py lines
62-72) and `build_card` (anime.py lines 80-89, popular.py lines 129-138):
`candidates = [c for c in [sub, dub] if isinstance(c, int)]`,
`max(candidates) if candidates else None`. -/
def deriveTotalEps : Option EpisodeCounts → Option Nat
  | none => none
  | some a =>
    match a.sub, a.dub with
    | some s, some d => some (max s d)
    | some s, none => some s
    | none, some d => some d
    | none, none => none

/-- Python truthiness of an `Optional[str]`: `None` and `""` are falsy. -/
def falsyStr : Option String → Bool
  | none => true
  | some s => s.isEmpty

/-- `SearchResultModel` (`src/app/models.py`). -/
structure SearchResultModel where
  name : String
  identifier : String
  image : Option String
  languages : List String
  totalEpisode : Option Nat
  ratingScore : Option ℚ
  ratingClassification : Option String
  deriving DecidableEq, Repr

/-- `AnimeCardModel` (`src/app/models.py`). -/
structure AnimeCardModel where
  identifier : String
  name : String
  image : Option String
  languages : List String
  genres : Option (List String)
  totalEpisode : Option Nat
  ratingScore : Option ℚ
  ratingClassification : Option String
  deriving DecidableEq, Repr

/-- `build_result` (search.py lines 57-131).  The score and age-rating
providers are always invoked; the episode provider only when no count was
derived from `available_episodes`; the image provider only when the entry's
own image is falsy (`if not image_url`).  The `asyncio.gather` branching
only wires the concurrent tasks together and has no effect on the merged
values, so the function returns the merged model plus the call log. -/
def build_result (P : Providers) (r : CatalogEntry) :
    SearchResultModel × CallLog :=
  let image0 := r.image
  let totalEps0 := deriveTotalEps r.availableEpisodes
  let totalEps := if totalEps0.isNone then P.jikanTotalEpisodes r.name
    else totalEps0
  let image := if falsyStr image0 then P.jikanImage r.name else image0
  ({ name := r.name
     identifier := r.identifier
     image := image
     languages := r.languages
     totalEpisode := totalEps
     ratingScore := P.anilistScore r.name
     ratingClassification := P.kitsuAgeRating r.name },
   { epsCalled := totalEps0.isNone
     imageCalled := falsyStr image0
     scoreCalled := true
     ageCalled := true })

/-- `build_card` (anime.py lines 77-121 and popular.py lines 127-170, the
two bodies are identical): like `build_result` but the image is taken from
the item as-is (the browse/popular image backfill pre-pass has already
run), so the image provider is never invoked here. -/
def build_card (P : Providers) (item : CatalogEntry) :
    AnimeCardModel × CallLog :=
  let totalEps0 := deriveTotalEps item.availableEpisodes
  let totalEps := if totalEps0.isNone then P.jikanTotalEpisodes item.name
    else totalEps0
  ({ identifier := item.identifier
     name := item.name
     image := item.image
     languages := item.languages
     genres := item.genres
     totalEpisode := totalEps
     ratingScore := P.anilistScore item.name
     ratingClassification := P.kitsuAgeRating item.name },
   { epsCalled := totalEps0.isNone
     imageCalled := false
     scoreCalled := true
     ageCalled := true })

/-- Python `str.strip` whitespace set (space, tab, newline, carriage
return, vertical tab, form feed). -/
def isPySpace (c : Char) : Bool :=
  c == ' ' || c == '\t' || c == '\n' || c == '\r' ||
    c == Char.ofNat 11 || c == Char.ofNat 12

/-- `s.strip()` over the character list. -/
def pyStrip (cs : List Char) : List Char :=
  ((cs.dropWhile isPySpace).reverse.dropWhile isPySpace).reverse

/-- `s.lower()` over the character list. -/
def pyLower (cs : List Char) : List Char := cs.map Char.toLower

/-- `s.startswith(p)` over character lists. -/
def startsWithChars : List Char → List Char → Bool
  | _, [] => true
  | [], _ :: _ => false
  | c :: cs, p :: ps => c == p && startsWithChars cs ps

/-- The image test of the browse/popular backfill pre-pass
(anime.py line 63, popular.py line 116):
`not image_url or not image_url.strip().lower().startswith("http")`. -/
def needsImageBackfill : Option String → Bool
  | none => true
  | some s =>
    s.isEmpty ||
      !(startsWithChars (pyLower (pyStrip s.data)) "http".data)

/-- The browse-route image backfill (anime.py lines 58-73): when the test
fires, `get_jikan_image(name)` is submitted and the item's image is set to
the provider's result if truthy, else explicitly to `None`.  The `Bool`
records whether the provider was invoked. -/
def backfillImageBrowse (jikan : String → Option String)
    (item : CatalogEntry) : CatalogEntry × Bool :=
  if needsImageBackfill item.image then
    match jikan item.name with
    | some s =>
      if s.isEmpty then ({ item with image := none }, true)
      else ({ item with image := some s }, true)
    | none => ({ item with image := none }, true)
  else (item, false)

/-- The popular-route image backfill (popular.py lines 112-123): same test
and provider call, but the item's image is assigned only when the provider
result is truthy — there is no `else` branch, so a failed lookup leaves the
previous image value in place. -/
def backfillImagePopular (jikan : String → Option String)
    (item : CatalogEntry) : CatalogEntry × Bool :=
  if needsImageBackfill item.image then
    match jikan item.name with
    | some s =>
      if s.isEmpty then (item, true)
      else ({ item with image := some s }, true)
    | none => (item, true)
  else (item, false)

/-! ## Browse cache key derivation (anime.py lines 48-49) -/

/-- The browse cache key: `genres_key = tuple(genres) if genres else None`
followed by `key = (page, limit, genres_key)`.  `genres` is falsy when the
query parameter is absent or the list is empty; the tuple keeps the
client-supplied order. -/
def browseCacheKey (page limit : Nat) (genres : List String) :
    Nat × Nat × Option (List String) :=
  (page, limit, if genres.isEmpty then none else some genres)

/-! ## Page-level fan-out (`asyncio.gather`, search.py line 133,
anime.py line 123, popular.py line 172)

`asyncio.gather` allocates one result slot per awaitable, in argument
order; each task writes its result into its own slot when it completes, and
the gathered list is read off slot by slot once every task has finished.
`completionOrder` below is the (arbitrary) order in which the scheduler
completes the per-item tasks. -/

/-- Run the per-item tasks of one page in the given completion order:
start from `n` empty slots; completing task `i` writes the enrichment of
`inputs[i]` into slot `i`. -/
def runGather {R : Type} (f : CatalogEntry → R) (inputs : List CatalogEntry)
    (completionOrder : List Nat) : List (Option R) :=
  completionOrder.foldl
    (fun slots i =>
      match inputs[i]? with
      | some x => slots.set i (some (f x))
      | none => slots)
    (List.replicate inputs.length none)

/-- The search route's page-level gather over `build_result`. -/
def searchGather (P : Providers) (inputs : List CatalogEntry)
    (completionOrder : List Nat) : List (Option (SearchResultModel × CallLog)) :=
  runGather (build_result P) inputs completionOrder

/-! ## Concurrency model of one page-level enrichment call

`search_anime` creates `asyncio.Semaphore(10)` and every `build_result`
body runs under `async with semaphore`; inside the body up to four provider
calls (`rating_score_task`, `rating_class_task`, `total_eps_task`,
`image_task`) are dispatched together via `asyncio.gather`
(search.py lines 55-116).  So a state of one page call is the number of
items not yet started plus, for each item currently holding the semaphore,
the number of its provider calls still in flight. -/

/-- `asyncio.Semaphore(10)` (search.py line 55, anime.py line 75,
popular.py line 125). -/
def semBound : Nat := 10

/-- At most four provider tasks are gathered inside one `build_result`
body (search.py lines 89-95). -/
def maxCallsPerItem : Nat := 4

structure OrchState where
  pending : Nat
  active : List Nat
  deriving DecidableEq, Repr

/-- The initial state of a page call with `n` entries: all pending, the
semaphore free. -/
def OrchState.init (n : Nat) : OrchState := ⟨n, []⟩

/-- Total enrichment-provider calls currently in flight. -/
def OrchState.callsInFlight (s : OrchState) : Nat := s.active.sum

/-- One scheduler step of a page-level enrichment call:
an item acquires the semaphore only while fewer than `semBound` items hold
it, and dispatches at most `maxCallsPerItem` provider calls; a provider
call completes; an item whose calls are all done releases the semaphore. -/
inductive OrchStep : OrchState → OrchState → Prop
  | acquire (p : Nat) (a : List Nat) (k : Nat) (hk : k ≤ maxCallsPerItem)
      (ha : a.length < semBound) :
      OrchStep ⟨p + 1, a⟩ ⟨p, k :: a⟩
  | callDone (p : Nat) (a b : List Nat) (c : Nat) :
      OrchStep ⟨p, a ++ (c + 1) :: b⟩ ⟨p, a ++ c :: b⟩
  | release (p : Nat) (a b : List Nat) :
      OrchStep ⟨p, a ++ 0 :: b⟩ ⟨p, a ++ b⟩

/-- States a page-level call can reach from its initial state. -/
def OrchReachable (n : Nat) (s : OrchState) : Prop :=
  Relation.ReflTransGen OrchStep (OrchState.init n) s

/-! ## The browse route against the browse cache
(anime.py lines 29-129)

`BROWSE_CACHE` stores the provider's browse result, a dict
`{page, has_next, results}` whose `results` list holds the item dicts
themselves.  The route reads the cached object without copying it, so the
image-backfill loop's `item["image"] = ...` writes mutate the very object
the cache holds; `mutateValue` renders that write-through. -/

/-- The dict returned by `provider.get_browse` and stored in
`BROWSE_CACHE`. -/
structure BrowseResult where
  page : Nat
  hasNext : Bool
  results : List CatalogEntry
  deriving DecidableEq, Repr

abbrev BrowseKey := Nat × Nat × Option (List String)

abbrev BrowseCache := TTLCache BrowseKey BrowseResult

/-- In-place mutation of the value object a cache entry references: the
binding and its expiry are untouched, only the referenced value changes
(this bypasses `TTLCache.set` entirely). -/
def mutateValue {K V : Type} [DecidableEq K] (l : List (K × Entry V)) (k : K)
    (f : V → V) : List (K × Entry V) :=
  l.map (fun p =>
    if p.1 = k then (p.1, ⟨p.2.expiresAt, p.2.value.map f⟩) else p)

/-- The image backfill applied across one page's results
(anime.py lines 58-73). -/
def backfillPageBrowse (jikan : String → Option String)
    (items : List CatalogEntry) : List CatalogEntry :=
  items.map (fun it => (backfillImageBrowse jikan it).1)

/-- `browse_anime` (anime.py lines 29-129): derive the cache key, serve the
browse result from `BROWSE_CACHE` or fetch and `set` it, then run the image
backfill (which mutates the cached item dicts in place) and `build_card`
over every item.  Returns the response and the cache as the request leaves
it. -/
def browse_anime (jikan : String → Option String) (P : Providers)
    (fetch : Unit → BrowseResult) (c : BrowseCache) (now : Nat)
    (page limit : Nat) (genres : List String) :
    (Nat × Bool × List AnimeCardModel) × BrowseCache :=
  let key := browseCacheKey page limit genres
  let got := c.get now key
  let r := match got.1 with
    | some r => r
    | none => fetch ()
  let c2 := match got.1 with
    | some _ => got.2
    | none => got.2.set now key r
  let backfilled := backfillPageBrowse jikan r.results
  let c3 : BrowseCache :=
    { c2 with
      data := mutateValue c2.data key
        (fun v => { v with results := backfillPageBrowse jikan v.results }) }
  let cards := backfilled.map (fun it => (build_card P it).1)
  ((r.page, r.hasNext, cards), c3)

/-! ## The four enrichment providers (`src/app/utils.py`)

Each provider body is a sequence of fallible Python operations — the HTTP
request itself (which may raise a transport error), `raise_for_status()`,
`response.json()`, and dict/list navigation — wrapped in
`try: ... except Exception: return None`.  The fallible body is embedded in
`Except Unit` (every Python exception collapses to the one error the
catch-all handler sees) over a JSON value model; the published provider is
the wrapped body. -/

inductive Json where
  | null
  | bool (b : Bool)
  | intNum (n : Int)
  | floatNum (q : ℚ)
  | str (s : String)
  | arr (xs : List Json)
  | obj (fields : List (String × Json))

/-- The observable outcome of one upstream HTTP exchange: a transport
error (connection failure or timeout, raised by the session call), or a
response with a status code and a payload; `none` as payload means
`response.json()` raises. -/
inductive HttpResult where
  | transportError
  | response (status : Nat) (body : Option Json)

/-- The session `get`/`post` call: raises on transport error. -/
def doRequest : HttpResult → Except Unit (Nat × Option Json)
  | .transportError => .error ()
  | .response status body => .ok (status, body)

/-- `response.raise_for_status()`: raises `HTTPError` exactly for client
and server error codes (400-599). -/
def raiseForStatus (status : Nat) : Except Unit Unit :=
  if 400 ≤ status ∧ status ≤ 599 then .error () else .ok ()

/-- `response.json()`: raises when the payload is not valid JSON. -/
def parseJson : Option Json → Except Unit Json
  | none => .error ()
  | some j => .ok j

/-- Python truthiness of a parsed JSON value. -/
def Json.truthy : Json → Bool
  | .null => false
  | .bool b => b
  | .intNum n => n ≠ 0
  | .floatNum q => q ≠ 0
  | .str s => !s.isEmpty
  | .arr xs => !xs.isEmpty
  | .obj fs => !fs.isEmpty

/-- Truthiness of an `Optional` JSON value (`None` is falsy). -/
def optTruthy : Option Json → Bool
  | none => false
  | some j => j.truthy

/-- `a or b` on two `Optional` JSON values: `a` if truthy, else `b`. -/
def pyOr (a b : Option Json) : Option Json :=
  if optTruthy a then a else b

/-- `d.get(k)`: `None` when the key is missing; raises `AttributeError`
when the receiver is not a dict. -/
def dictGet (j : Json) (k : String) : Except Unit (Option Json) :=
  match j with
  | .obj fs =>
    .ok ((fs.find? (fun p => p.1 = k)).map (fun p => p.2))
  | _ => .error ()

/-- `d.get(k, default)`. -/
def dictGetD (j : Json) (k : String) (d : Json) : Except Unit Json := do
  let o ← dictGet j k
  pure (o.getD d)

/-- `d[k]` on a dict: raises `KeyError` when missing, `TypeError` when the
receiver is not a dict. -/
def dictIdx (j : Json) (k : String) : Except Unit Json := do
  let o ← dictGet j k
  match o with
  | some v => pure v
  | none => .error ()

/-- `xs[0]`: raises when the receiver is not a list or is empty. -/
def listFirst : Json → Except Unit Json
  | .arr (x :: _) => .ok x
  | _ => .error ()

/-- `isinstance(x, int)` on a parsed JSON value (Python `bool` is a
subclass of `int`). -/
def isPyInt : Json → Bool
  | .intNum _ => true
  | .bool _ => true
  | _ => false

/-- `isinstance(x, (int, float))` on a parsed JSON value. -/
def isPyNum : Json → Bool
  | .intNum _ => true
  | .floatNum _ => true
  | .bool _ => true
  | _ => false

/-- `float(x)` for a value passing `isPyNum`. -/
def pyFloat : Json → ℚ
  | .intNum n => (n : ℚ)
  | .floatNum q => q
  | .bool b => if b then 1 else 0
  | _ => 0

/-- `str(x)` of a parsed JSON value.  The container cases abbreviate the
Python repr; only the scalar cases are reachable through the providers
below (the age-rating field is compared as a string). -/
def pyStr : Json → String
  | .str s => s
  | .intNum n => toString n
  | .floatNum q => toString q
  | .bool true => "True"
  | .bool false => "False"
  | .null => "None"
  | .arr _ => "<list>"
  | .obj _ => "<dict>"

/-- Body of `get_jikan_image` (utils.py lines 56-70), before the
catch-all. -/
def jikanImageBody (r : HttpResult) : Except Unit (Option Json) := do
  let (status, body) ← doRequest r
  raiseForStatus status
  let data ← parseJson body
  let d ← dictGet data "data"
  if optTruthy d then
    let lst ← dictIdx data "data"
    let first ← listFirst lst
    let images ← dictIdx (← dictIdx first "images") "jpg"
    let large ← dictGet images "large_image_url"
    let small ← dictGet images "image_url"
    pure (pyOr large small)
  else
    pure none

/-- `get_jikan_image`: the body under `try ... except Exception: return
None`. -/
def get_jikan_image (r : HttpResult) : Option Json :=
  match jikanImageBody r with
  | .ok v => v
  | .error _ => none

/-- Body of `get_jikan_total_episodes` (utils.py lines 74-87). -/
def jikanTotalEpisodesBody (r : HttpResult) : Except Unit (Option Json) := do
  let (status, body) ← doRequest r
  raiseForStatus status
  let data ← parseJson body
  let d ← dictGet data "data"
  if optTruthy d then
    let lst ← dictIdx data "data"
    let first ← listFirst lst
    let ep ← dictGet first "episodes"
    match ep with
    | some j => pure (if isPyInt j then some j else none)
    | none => pure none
  else
    pure none

/-- `get_jikan_total_episodes`: the body under the catch-all. -/
def get_jikan_total_episodes (r : HttpResult) : Option Json :=
  match jikanTotalEpisodesBody r with
  | .ok v => v
  | .error _ => none

/-- Body of `get_anilist_score` (utils.py lines 118-145): reads
`data.get("data", {}).get("Media")`, takes `averageScore or meanScore`,
and rescales a 0-100 numeric score to 0-10 at the provider boundary. -/
def anilistScoreBody (r : HttpResult) : Except Unit (Option ℚ) := do
  let (status, body) ← doRequest r
  raiseForStatus status
  let data ← parseJson body
  let dataField ← dictGetD data "data" (.obj [])
  let media ← dictGet dataField "Media"
  match media with
  | some m =>
    if m.truthy then
      let avg ← dictGet m "averageScore"
      let mean ← dictGet m "meanScore"
      match pyOr avg mean with
      | some j =>
        if isPyNum j then pure (some (pyFloat j / 10)) else pure none
      | none => pure none
    else
      pure none
  | none => pure none

/-- `get_anilist_score`: the body under the catch-all. -/
def get_anilist_score (r : HttpResult) : Option ℚ :=
  match anilistScoreBody r with
  | .ok v => v
  | .error _ => none

/-- The fixed Kitsu classification table (utils.py lines 165-170). -/
def kitsuMapping (code : String) : Option String :=
  if code = "G" then some "G - All Ages"
  else if code = "PG" then some "PG - Children"
  else if code = "R" then some "R - 17+"
  else if code = "R18" then some "R18+ - Adults Only"
  else none

/-- Body of `get_kitsu_age_rating` (utils.py lines 149-174): unknown codes
pass through as their raw string. -/
def kitsuAgeRatingBody (r : HttpResult) : Except Unit (Option String) := do
  let (status, body) ← doRequest r
  raiseForStatus status
  let data ← parseJson body
  let d ← dictGet data "data"
  if optTruthy d then
    let lst ← dictIdx data "data"
    let first ← listFirst lst
    let attrs ← dictGetD first "attributes" (.obj [])
    let rating ← dictGet attrs "ageRating"
    match rating with
    | some j =>
      if j.truthy then
        pure (some ((kitsuMapping (pyStr j).toUpper).getD (pyStr j)))
      else
        pure none
    | none => pure none
  else
    pure none

/-- `get_kitsu_age_rating`: the body under the catch-all. -/
def get_kitsu_age_rating (r : HttpResult) : Option String :=
  match kitsuAgeRatingBody r with
  | .ok v => v
  | .error _ => none

/-! ## Lemmas about the cache's association list -/

theorem lookupKey_eq_none_of_not_mem {K V : Type} [DecidableEq K]
    {l : List (K × Entry V)} {k : K} (h : k ∉ l.map Prod.fst) :
    lookupKey l k = none := by
  induction l with
  | nil => rfl
  | cons p rest ih =>
    rw [List.map_cons] at h
    have hp : ¬ p.1 = k := fun hpk => h (by rw [← hpk]; exact List.mem_cons_self _ _)
    have hrest : k ∉ rest.map Prod.fst := fun hm => h (List.mem_cons_of_mem _ hm)
    rw [lookupKey, if_neg hp]
    exact ih hrest

theorem lookupKey_map_overwrite {K V : Type} [DecidableEq K]
    (l : List (K × Entry V)) (k : K) (e : Entry V)
    (h : l.any (fun p => p.1 = k) = true) :
    lookupKey (l.map (fun p => if p.1 = k then (k, e) else p)) k = some e := by
  induction l with
  | nil => simp at h
  | cons p rest ih =>
    by_cases hp : p.1 = k
    · simp [lookupKey, hp]
    · have hrest : rest.any (fun p => p.1 = k) = true := by
        simpa [List.any_cons, hp] using h
      simp [lookupKey, hp, ih hrest]

theorem lookupKey_append_single {K V : Type} [DecidableEq K]
    (l : List (K × Entry V)) (k : K) (e : Entry V)
    (h : l.any (fun p => p.1 = k) = false) :
    lookupKey (l ++ [(k, e)]) k = some e := by
  induction l with
  | nil => simp [lookupKey]
  | cons p rest ih =>
    simp only [List.any_cons, Bool.or_eq_false_iff, decide_eq_false_iff_not] at h
    rw [List.cons_append, lookupKey, if_neg h.1]
    exact ih h.2

theorem lookupKey_dictSet {K V : Type} [DecidableEq K]
    (l : List (K × Entry V)) (k : K) (e : Entry V) :
    lookupKey (dictSet l k e) k = some e := by
  unfold dictSet
  by_cases h : l.any (fun p => p.1 = k) = true
  · rw [if_pos h]
    exact lookupKey_map_overwrite l k e h
  · rw [if_neg h]
    refine lookupKey_append_single l k e ?_
    cases hb : l.any (fun p => p.1 = k) with
    | false => rfl
    | true => exact absurd hb h

theorem lookupKey_removeKey {K V : Type} [DecidableEq K]
    {l : List (K × Entry V)} (k : K) (h : (l.map Prod.fst).Nodup) :
    lookupKey (removeKey l k) k = none := by
  induction l with
  | nil => rfl
  | cons p rest ih =>
    rw [List.map_cons, List.nodup_cons] at h
    by_cases hp : p.1 = k
    · rw [removeKey, if_pos hp]
      exact lookupKey_eq_none_of_not_mem (hp ▸ h.1)
    · rw [removeKey, if_neg hp, lookupKey, if_neg hp]
      exact ih h.2

/-- What a read at time `now2` sees after `set` ran at time `now`. -/
theorem get_after_set {K V : Type} [DecidableEq K] (c : TTLCache K V)
    (now now2 : Nat) (k : K) (v : Option V) :
    ((c.set now k v).get now2 k).1 = if now + c.ttl ≤ now2 then none else v := by
  have hl : lookupKey (c.set now k v).data k = some ⟨now + c.ttl, v⟩ :=
    lookupKey_dictSet _ _ _
  unfold TTLCache.get
  rw [hl]
  by_cases h : now + c.ttl ≤ now2 <;> simp [h]

theorem evictLoop_length_lt {K V : Type} (m : Nat) (h : 1 ≤ m) :
    ∀ l : List (K × Entry V), (evictLoop m l).length < m := by
  intro l
  induction l with
  | nil => simpa [evictLoop] using h
  | cons p rest ih =>
    rw [evictLoop]
    by_cases hc : m ≤ (p :: rest).length
    · rw [if_pos hc]; exact ih
    · rw [if_neg hc]; omega

theorem dictSet_length_le {K V : Type} [DecidableEq K]
    (l : List (K × Entry V)) (k : K) (e : Entry V) :
    (dictSet l k e).length ≤ l.length + 1 := by
  unfold dictSet
  split
  · simp
  · simp

theorem set_data_length_le {K V : Type} [DecidableEq K] (c : TTLCache K V)
    (now : Nat) (k : K) (v : Option V) (h : 1 ≤ c.maxsize) :
    (c.set now k v).data.length ≤ c.maxsize := by
  have h1 := evictLoop_length_lt (K := K) (V := V) c.maxsize h
    (purgeExpired now c.data)
  have h2 := dictSet_length_le (evictLoop c.maxsize (purgeExpired now c.data))
    k (⟨now + c.ttl, v⟩ : Entry V)
  show (dictSet (evictLoop c.maxsize (purgeExpired now c.data)) k
    ⟨now + c.ttl, v⟩).length ≤ c.maxsize
  omega

/-! ## Claim C5 -/

/-- C5 (confirmed, for a positive TTL): `set(k, v)` followed immediately by
`get(k)` returns `v`; a `get` once `ttl` seconds have elapsed returns
absent; and `get` never serves an entry whose expiry has passed — the
stale entry is popped as a side effect of the read (keys of a Python dict
are unique, hence the `Nodup` hypothesis on the store). -/
theorem ttlCache_set_get_ttl {K V : Type} [DecidableEq K] (c : TTLCache K V)
    (now : Nat) (k : K) (v : Option V) (h : 0 < c.ttl) :
    ((c.set now k v).get now k).1 = v ∧
    ((c.set now k v).get (now + c.ttl) k).1 = none ∧
    (∀ e : Entry V, (c.data.map Prod.fst).Nodup →
      lookupKey c.data k = some e → e.expiresAt ≤ now →
      (c.get now k).1 = none ∧
      lookupKey ((c.get now k).2).data k = none) := by
  refine ⟨?_, ?_, ?_⟩
  · rw [get_after_set, if_neg (by omega)]
  · rw [get_after_set, if_pos (le_refl _)]
  · intro e hnd he hexp
    have hget : c.get now k = (none, { c with data := removeKey c.data k }) := by
      simp [TTLCache.get, he, hexp]
    rw [hget]
    exact ⟨rfl, lookupKey_removeKey k hnd⟩

/-- C5 witness: a concrete cache with the search route's parameters
(`ttl = 60`). -/
theorem ttlCache_set_get_ttl_witness :
    (0 : Nat) < (60 : Nat) ∧
    (((⟨60, 512, []⟩ : TTLCache Nat Nat).set 0 1 (some 5)).get 0 1).1 =
      some 5 := by
  refine ⟨by decide, ?_⟩
  exact (ttlCache_set_get_ttl (⟨60, 512, []⟩ : TTLCache Nat Nat) 0 1 (some 5)
    (by decide)).1

/-! ## Claim C6 -/

/-- C6 (confirmed, for a positive capacity): after any `set` — over any
prior store, hence after any call of any sequence of `set` calls — the
store holds at most `maxsize` entries; `set` purges expired entries, then
evicts in iteration order until below capacity, and never raises. -/
theorem ttlCache_size_bound {K V : Type} [DecidableEq K] (c : TTLCache K V)
    (now : Nat) (k : K) (v : Option V) (h : 1 ≤ c.maxsize) :
    (c.set now k v).data.length ≤ c.maxsize ∧
    ∀ ops : List (Nat × K × Option V),
      (ops.foldl (fun acc o => acc.set o.1 o.2.1 o.2.2)
        (c.set now k v)).data.length ≤ c.maxsize := by
  have hstart := set_data_length_le c now k v h
  refine ⟨hstart, ?_⟩
  have aux : ∀ (ops : List (Nat × K × Option V)) (d : TTLCache K V),
      1 ≤ d.maxsize → d.data.length ≤ d.maxsize →
      (ops.foldl (fun acc o => acc.set o.1 o.2.1 o.2.2) d).data.length ≤
        (ops.foldl (fun acc o => acc.set o.1 o.2.1 o.2.2) d).maxsize ∧
      (ops.foldl (fun acc o => acc.set o.1 o.2.1 o.2.2) d).maxsize =
        d.maxsize := by
    intro ops
    induction ops with
    | nil => exact fun d h1 h2 => ⟨h2, rfl⟩
    | cons o rest ih =>
      intro d h1 h2
      rw [List.foldl_cons]
      have hm : (d.set o.1 o.2.1 o.2.2).maxsize = d.maxsize := rfl
      have h3 := ih (d.set o.1 o.2.1 o.2.2) (hm ▸ h1)
        (hm ▸ set_data_length_le d o.1 o.2.1 o.2.2 h1)
      exact ⟨h3.1, by rw [h3.2, hm]⟩
  intro ops
  have hm : (c.set now k v).maxsize = c.maxsize := rfl
  have := aux ops (c.set now k v) (hm ▸ h) (hm ▸ hstart)
  calc (ops.foldl (fun acc o => acc.set o.1 o.2.1 o.2.2)
        (c.set now k v)).data.length
      ≤ _ := this.1
    _ = c.maxsize := by rw [this.2, hm]

/-- C6 witness: three distinct keys through a capacity-2 cache. -/
theorem ttlCache_size_bound_witness :
    (1 : Nat) ≤ (2 : Nat) ∧
    (([(1, (2 : Nat), some (20 : Nat)), (2, 3, some 30)].foldl
      (fun acc o => acc.set o.1 o.2.1 o.2.2)
      ((⟨60, 2, []⟩ : TTLCache Nat Nat).set 0 1 (some 10))).data.length ≤ 2) := by
  refine ⟨by decide, ?_⟩
  exact (ttlCache_size_bound (⟨60, 2, []⟩ : TTLCache Nat Nat) 0 1 (some 10)
    (by decide)).2 [(1, 2, some 20), (2, 3, some 30)]

-- The two branches of `get_or_set`, phrased on the projections of `get`.
theorem getOrSet_invokes_of_get_none {K V : Type} [DecidableEq K]
    (c : TTLCache K V) (now : Nat) (k : K) (f : Unit → Option V)
    (h : (c.get now k).1 = none) :
    c.getOrSet now k f = (f (), (c.get now k).2.set now k (f ()), true) := by
  rcases hg : c.get now k with ⟨o, c1⟩
  rw [hg] at h
  simp only at h
  subst h
  simp [TTLCache.getOrSet, hg]

theorem getOrSet_cached_of_get_some {K V : Type} [DecidableEq K]
    (c : TTLCache K V) (now : Nat) (k : K) (f : Unit → Option V) (v : V)
    (h : (c.get now k).1 = some v) :
    c.getOrSet now k f = (some v, (c.get now k).2, false) := by
  rcases hg : c.get now k with ⟨o, c1⟩
  rw [hg] at h
  simp only at h
  subst h
  simp [TTLCache.getOrSet, hg]

/-! ## Claim C10 -/

/-- C10 (confirmed): the cache cannot effectively store `None`.  A `get`
after `set(k, None)` returns `None` — exactly what a miss on an empty
cache returns — and once a `get_or_set` invoked a factory that returned
`None`, the next `get_or_set` on the same key invokes its factory again
(for any factory and at any later time), so absent results are never
memoized. -/
theorem ttlCache_none_not_memoized {K V : Type} [DecidableEq K]
    (c : TTLCache K V) (now now2 : Nat) (k : K) (g : Unit → Option V)
    (hinv : (c.getOrSet now k (fun _ => none)).2.2 = true) :
    (∀ t m : Nat, ((⟨t, m, []⟩ : TTLCache K V).get now2 k).1 = none) ∧
    ((c.set now k none).get now2 k).1 = none ∧
    (c.getOrSet now k (fun _ => none)).1 = none ∧
    (((c.getOrSet now k (fun _ => none)).2.1).getOrSet now2 k g).2.2 =
      true := by
  have hmiss : ∀ (d : TTLCache K V) (t : Nat),
      ((d.set now k none).get t k).1 = none := by
    intro d t
    rw [get_after_set]
    split <;> rfl
  have hn : (c.get now k).1 = none := by
    rcases ho : (c.get now k).1 with _ | v
    · rfl
    · exfalso
      rw [getOrSet_cached_of_get_some c now k _ v ho] at hinv
      simp at hinv
  rw [getOrSet_invokes_of_get_none c now k _ hn]
  refine ⟨fun t m => rfl, hmiss c now2, rfl, ?_⟩
  rw [getOrSet_invokes_of_get_none _ now2 k g (hmiss _ now2)]

/-- C10 witness: an empty cache, constant-`none` factory. -/
theorem ttlCache_none_not_memoized_witness :
    ((⟨60, 512, []⟩ : TTLCache Nat Nat).getOrSet 0 7
      (fun _ => none)).2.2 = true ∧
    ((((⟨60, 512, []⟩ : TTLCache Nat Nat).getOrSet 0 7
      (fun _ => none)).2.1).getOrSet 1 7 (fun _ => some 3)).2.2 = true := by
  refine ⟨by decide, ?_⟩
  exact (ttlCache_none_not_memoized (⟨60, 512, []⟩ : TTLCache Nat Nat) 0 1 7
    (fun _ => some 3) (by decide)).2.2.2

/-! ## Claim C7 -/

/-- C7 counterexample: the browse cache key keeps the client-supplied
genre order (`tuple(genres)`, no sorting), so the same genre set in two
orders yields two different keys — the second request is a cache miss, not
a hit. -/
theorem browseCacheKey_order_sensitive_counterexample :
    browseCacheKey 1 20 ["Action", "Comedy"] ≠
      browseCacheKey 1 20 ["Comedy", "Action"] := by
  decide

/-- C7 (corrected): cache key derivation is order-sensitive in the genre
list — two browse requests with the same page and limit share a cache key
exactly when their (non-empty) genre lists are equal element-for-element
in the client-supplied order. -/
theorem browseCacheKey_eq_iff (p l : Nat) (g1 g2 : List String)
    (h1 : g1 ≠ []) (h2 : g2 ≠ []) :
    browseCacheKey p l g1 = browseCacheKey p l g2 ↔ g1 = g2 := by
  unfold browseCacheKey
  rw [if_neg (by simpa using h1), if_neg (by simpa using h2)]
  constructor
  · intro h
    simpa using congrArg (fun t => t.2.2) h
  · intro h
    rw [h]

/-- C7 witness: two equal one-genre lists share their key. -/
theorem browseCacheKey_eq_iff_witness :
    (["Action"] : List String) ≠ [] ∧
    (browseCacheKey 1 20 ["Action"] = browseCacheKey 1 20 ["Action"] ↔
      (["Action"] : List String) = ["Action"]) :=
  ⟨by decide, browseCacheKey_eq_iff 1 20 ["Action"] ["Action"]
    (by decide) (by decide)⟩

/-! ## Claim C1 -/

/-- A provider environment whose lookups all fail; used by the concrete
counterexamples and witnesses. -/
def P0 : Providers :=
  ⟨fun _ => none, fun _ => none, fun _ => none, fun _ => none⟩

/-- A catalog entry whose `available_episodes` dict is present but holds
no integer count (Python: `available_episodes = {}`). -/
def entryEmptyCounts : CatalogEntry :=
  ⟨"id0", "TitleA", some "http://example.com/a.jpg", ["sub"], none,
    some ⟨none, none⟩⟩

/-- C1 counterexample: on an entry whose `availableEpisodeCounts` map is
present but holds no count, the pipeline does invoke the episode-count
provider (and derives no total), contradicting the claim's "present map →
provider not invoked". -/
theorem build_result_empty_counts_counterexample :
    entryEmptyCounts.availableEpisodes.isSome = true ∧
    (build_result P0 entryEmptyCounts).2.epsCalled = true ∧
    (build_result P0 entryEmptyCounts).1.totalEpisode = none := by
  refine ⟨rfl, rfl, rfl⟩

/-- C1 (corrected): when the entry's `availableEpisodeCounts` is present
and holds at least one integer count, both per-item pipelines set
`totalEpisodes` to the maximum count across the entry's languages and do
not invoke the episode-count provider; the provider is invoked by name
exactly when no count is derivable from the entry (absent map or a
present map with no integer count). -/
theorem build_total_episodes_fallback (P : Providers) (e : CatalogEntry) :
    (∀ s d : Nat, e.availableEpisodes = some ⟨some s, some d⟩ →
      (build_result P e).1.totalEpisode = some (max s d) ∧
      (build_card P e).1.totalEpisode = some (max s d) ∧
      (build_result P e).2.epsCalled = false ∧
      (build_card P e).2.epsCalled = false) ∧
    (∀ s : Nat, e.availableEpisodes = some ⟨some s, none⟩ →
      (build_result P e).1.totalEpisode = some s ∧
      (build_result P e).2.epsCalled = false) ∧
    (∀ d : Nat, e.availableEpisodes = some ⟨none, some d⟩ →
      (build_result P e).1.totalEpisode = some d ∧
      (build_result P e).2.epsCalled = false) ∧
    (deriveTotalEps e.availableEpisodes = none →
      (build_result P e).2.epsCalled = true ∧
      (build_result P e).1.totalEpisode = P.jikanTotalEpisodes e.name ∧
      (build_card P e).2.epsCalled = true ∧
      (build_card P e).1.totalEpisode = P.jikanTotalEpisodes e.name) := by
  refine ⟨?_, ?_, ?_, ?_⟩
  · intro s d h
    simp [build_result, build_card, deriveTotalEps, h]
  · intro s h
    simp [build_result, deriveTotalEps, h]
  · intro d h
    simp [build_result, deriveTotalEps, h]
  · intro h
    simp [build_result, build_card, h]

/-- An entry carrying the spec's example counts `{sub: 12, dub: 10}` and
no image. -/
def entrySpecExample : CatalogEntry :=
  ⟨"id2", "TitleC", none, ["sub", "dub"], none, some ⟨some 12, some 10⟩⟩

/-- C1 witness: the spec's example — counts `{sub: 12, dub: 10}` yield
`totalEpisodes = 12` with no episode-provider call (and, the entry having
no image, the image provider is called). -/
theorem build_total_episodes_fallback_witness :
    (build_result P0 entrySpecExample).1.totalEpisode = some 12 ∧
    (build_result P0 entrySpecExample).2.epsCalled = false ∧
    (build_result P0 entrySpecExample).2.imageCalled = true := by
  have h := (build_total_episodes_fallback P0 entrySpecExample).1 12 10 rfl
  refine ⟨?_, h.2.2.1, rfl⟩
  rw [h.1]
  norm_num

/-! ## Claim C3 -/

/-- An item whose image is present but not an absolute URL. -/
def itemRelImage : CatalogEntry :=
  ⟨"id1", "TitleB", some "/covers/b.jpg", ["sub"], none, none⟩

/-- C3 counterexample: in the popular route's backfill, an item with a
present-but-invalid image for which the cover-image provider returns
absence keeps the invalid value — the image is not cleared. -/
theorem popular_keeps_invalid_image_counterexample :
    needsImageBackfill itemRelImage.image = true ∧
    (backfillImagePopular (fun _ => none) itemRelImage).2 = true ∧
    (backfillImagePopular (fun _ => none) itemRelImage).1.image =
      some "/covers/b.jpg" := by
  refine ⟨by decide, rfl, rfl⟩

/-- C3 (corrected): the claimed behaviour holds for the browse route only.
In the browse backfill, a present image passing the case-insensitive
http-scheme check is kept and the provider is not invoked; otherwise the
cover-image provider is invoked by name, its truthy result is installed,
and its absence (or empty result) explicitly clears the image.  The
popular backfill performs the same check and call but retains the previous
image when the provider fails.  The search route performs no syntactic
check at all: the provider is invoked exactly when the image is missing or
empty, and a present non-empty (even invalid) image is kept. -/
theorem image_fallback_by_route (jikan : String → Option String)
    (P : Providers) (item : CatalogEntry) :
    (needsImageBackfill item.image = false →
      backfillImageBrowse jikan item = (item, false) ∧
      backfillImagePopular jikan item = (item, false)) ∧
    (needsImageBackfill item.image = true →
      (backfillImageBrowse jikan item).2 = true ∧
      (backfillImagePopular jikan item).2 = true ∧
      (jikan item.name = none →
        (backfillImageBrowse jikan item).1.image = none ∧
        (backfillImagePopular jikan item).1.image = item.image) ∧
      (∀ s : String, jikan item.name = some s → s.isEmpty = true →
        (backfillImageBrowse jikan item).1.image = none) ∧
      (∀ s : String, jikan item.name = some s → s.isEmpty = false →
        (backfillImageBrowse jikan item).1.image = some s ∧
        (backfillImagePopular jikan item).1.image = some s)) ∧
    ((build_result P item).2.imageCalled = falsyStr item.image ∧
      (falsyStr item.image = false →
        (build_result P item).1.image = item.image) ∧
      (falsyStr item.image = true →
        (build_result P item).1.image = P.jikanImage item.name)) := by
  refine ⟨?_, ?_, rfl, ?_, ?_⟩
  · intro h
    constructor <;> simp [backfillImageBrowse, backfillImagePopular, h]
  · intro h
    refine ⟨?_, ?_, ?_, ?_, ?_⟩
    · simp only [backfillImageBrowse, h, if_true]
      rcases jikan item.name with _ | s
      · rfl
      · by_cases hs : s.isEmpty <;> simp [hs]
    · simp only [backfillImagePopular, h, if_true]
      rcases jikan item.name with _ | s
      · rfl
      · by_cases hs : s.isEmpty <;> simp [hs]
    · intro hj
      simp [backfillImageBrowse, backfillImagePopular, h, hj]
    · intro s hj hs
      simp [backfillImageBrowse, h, hj, hs]
    · intro s hj hs
      constructor <;>
        simp [backfillImageBrowse, backfillImagePopular, h, hj, hs]
  · intro h
    simp [build_result, h]
  · intro h
    simp [build_result, h]

/-- C3 witness: an item with no image goes through the browse backfill and
receives the provider's URL. -/
theorem image_fallback_by_route_witness :
    needsImageBackfill (none : Option String) = true ∧
    (backfillImageBrowse (fun _ => some "http://cdn.example/c.jpg")
      (⟨"id3", "TitleD", none, [], none, none⟩ : CatalogEntry)).1.image =
      some "http://cdn.example/c.jpg" := by
  refine ⟨rfl, ?_⟩
  exact (((image_fallback_by_route (fun _ => some "http://cdn.example/c.jpg")
    P0 ⟨"id3", "TitleD", none, [], none, none⟩).2.1 rfl).2.2.2.2
    "http://cdn.example/c.jpg" rfl rfl).1

/-! ## Claim C2 -/

-- The slot array written by the fan-out: its length never changes, and
-- after the fold, a slot whose index occurred in the completion order
-- holds the enrichment of the input at that index, untouched otherwise.
theorem runGather_foldl_spec {R : Type} (f : CatalogEntry → R)
    (inputs : List CatalogEntry) :
    ∀ (order : List Nat) (slots : List (Option R)),
      slots.length = inputs.length →
      (order.foldl
        (fun slots i =>
          match inputs[i]? with
          | some x => slots.set i (some (f x))
          | none => slots) slots).length = inputs.length ∧
      ∀ (i : Nat) (x : CatalogEntry), inputs[i]? = some x →
        ((i ∈ order →
          (order.foldl
            (fun slots i =>
              match inputs[i]? with
              | some x => slots.set i (some (f x))
              | none => slots) slots)[i]? = some (some (f x))) ∧
        (i ∉ order →
          (order.foldl
            (fun slots i =>
              match inputs[i]? with
              | some x => slots.set i (some (f x))
              | none => slots) slots)[i]? = slots[i]?)) := by
  intro order
  induction order with
  | nil =>
    intro slots hlen
    exact ⟨hlen, fun i x hx => ⟨fun hmem => absurd hmem (List.not_mem_nil i),
      fun _ => rfl⟩⟩
  | cons j rest ih =>
    intro slots hlen
    rw [List.foldl_cons]
    rcases hj : inputs[j]? with _ | xj
    · -- index out of range: the step is the identity
      have h2 := ih slots hlen
      refine ⟨h2.1, fun i x hx => ⟨fun hmem => ?_, fun hni => ?_⟩⟩
      · rcases List.mem_cons.mp hmem with hij | hir
        · subst hij
          rw [hx] at hj
          exact absurd hj (by simp)
        · exact ((h2.2 i x hx).1) hir
      · exact (h2.2 i x hx).2 (fun hm => hni (List.mem_cons_of_mem _ hm))
    · have hlen2 : (slots.set j (some (f xj))).length = inputs.length := by
        rw [List.length_set]; exact hlen
      have h2 := ih (slots.set j (some (f xj))) hlen2
      refine ⟨h2.1, fun i x hx => ⟨fun hmem => ?_, fun hni => ?_⟩⟩
      · by_cases hir : i ∈ rest
        · exact (h2.2 i x hx).1 hir
        · have hij : i = j := by
            rcases List.mem_cons.mp hmem with h | h
            · exact h
            · exact absurd h hir
          subst hij
          rw [(h2.2 i x hx).2 hir]
          have hi : i < slots.length := by
            rw [hlen]
            exact List.getElem?_eq_some_iff.mp hx |>.1
          have hxx : xj = x := by
            rw [hx] at hj
            exact (Option.some.inj hj).symm
          rw [hxx]
          simp [List.getElem?_set_self', hi]
      · have hnij : i ≠ j := fun h => hni (h ▸ List.mem_cons_self _ _)
        have hnir : i ∉ rest := fun h => hni (List.mem_cons_of_mem _ h)
        rw [(h2.2 i x hx).2 hnir]
        rw [List.getElem?_set_ne hnij.symm]

/-- C2 (confirmed): for every input page and every completion order of the
concurrent per-item tasks (any permutation of the item indices), the
search route's page-level gather yields exactly one filled slot per input,
in input order: slot `i` holds the enrichment of `inputs[i]`. -/
theorem searchGather_order_preserving (P : Providers)
    (inputs : List CatalogEntry) (order : List Nat)
    (hperm : order.Perm (List.range inputs.length)) :
    (searchGather P inputs order).length = inputs.length ∧
    ∀ (i : Nat) (hi : i < inputs.length),
      (searchGather P inputs order)[i]? =
        some (some (build_result P inputs[i])) := by
  have hspec := runGather_foldl_spec (build_result P) inputs order
    (List.replicate inputs.length none) (List.length_replicate _ _)
  refine ⟨hspec.1, fun i hi => ?_⟩
  have hx : inputs[i]? = some inputs[i] := List.getElem?_eq_getElem hi
  have hmem : i ∈ order := by
    rw [hperm.mem_iff, List.mem_range]
    exact hi
  exact (hspec.2 i inputs[i] hx).1 hmem

/-- C2 witness: a two-item page completed in reversed order. -/
theorem searchGather_order_preserving_witness :
    (searchGather P0 [entryEmptyCounts, entrySpecExample] [1, 0]).length = 2 ∧
    (searchGather P0 [entryEmptyCounts, entrySpecExample] [1, 0])[0]? =
      some (some (build_result P0 entryEmptyCounts)) := by
  have h := searchGather_order_preserving P0
    [entryEmptyCounts, entrySpecExample] [1, 0] (by decide)
  exact ⟨h.1, h.2 0 (by decide)⟩

/-! ## Claim C8 -/

-- Looking a key up after an in-place mutation of its value object.
theorem lookupKey_mutateValue {K V : Type} [DecidableEq K]
    (l : List (K × Entry V)) (k : K) (f : V → V) :
    lookupKey (mutateValue l k f) k =
      (lookupKey l k).map (fun e => ⟨e.expiresAt, e.value.map f⟩) := by
  induction l with
  | nil => rfl
  | cons p rest ih =>
    by_cases hp : p.1 = k
    · simp [mutateValue, lookupKey, hp]
    · simp only [mutateValue, List.map_cons, if_neg hp]
      rw [lookupKey, if_neg hp, lookupKey, if_neg hp]
      exact ih

/-- The browse result stored at `key` in the starting cache of the C8
counterexample. -/
def browseStored : BrowseResult := ⟨1, false, [itemRelImage]⟩

/-- The C8 counterexample's starting cache: an empty browse cache into
which `browseStored` was `set` at time 0 under the key of
`page = 1, limit = 20`, no genres. -/
def browseCacheC8 : BrowseCache :=
  (⟨60, 256, []⟩ : BrowseCache).set 0 (browseCacheKey 1 20 []) (some browseStored)

/-- The cover-image provider of the C8 scenario: always finds an image. -/
def jikanHitC8 : String → Option String := fun _ => some "http://cdn.example/b.jpg"

/-- C8 counterexample: immediately after `set`, `get` returns the stored
browse result; but one browse request served from the cache mutates the
stored item dicts in place (the image backfill), so the next `get` — still
within the TTL and with no intervening `set` — no longer returns the value
as it was stored. -/
theorem cached_value_mutated_counterexample :
    ((browseCacheC8.get 0 (browseCacheKey 1 20 [])).1 = some browseStored) ∧
    ((browse_anime jikanHitC8 P0 (fun _ => browseStored) browseCacheC8
        0 1 20 []).2.get 0 (browseCacheKey 1 20 [])).1 ≠ some browseStored := by
  refine ⟨rfl, ?_⟩
  decide

/-- C8 (corrected): a cached browse value is not immutable after `set`.
When a browse request is served from the cache, the image-backfill loop
mutates the cached object in place: afterwards, a `get` of the same key
within the TTL returns the stored value with its results' images
backfilled — its expiry and binding untouched, but its contents changed
without any intervening `set`.  Values therefore change both by wholesale
replacement through `set` and by this in-place mutation. -/
theorem browse_hit_mutates_cached_value (jikan : String → Option String)
    (P : Providers) (fetch : Unit → BrowseResult) (c : BrowseCache)
    (now page limit : Nat) (genres : List String) (r : BrowseResult)
    (h : (c.get now (browseCacheKey page limit genres)).1 = some r) :
    (((browse_anime jikan P fetch c now page limit genres).2).get now
        (browseCacheKey page limit genres)).1 =
      some { r with results := backfillPageBrowse jikan r.results } := by
  rcases he : lookupKey c.data (browseCacheKey page limit genres) with _ | e
  · exfalso
    unfold TTLCache.get at h
    rw [he] at h
    simp at h
  · by_cases hexp : e.expiresAt ≤ now
    · exfalso
      have hget : c.get now (browseCacheKey page limit genres) =
          (none,
            { c with data := removeKey c.data (browseCacheKey page limit genres) }) := by
        simp [TTLCache.get, he, hexp]
      rw [hget] at h
      simp at h
    · have hget : c.get now (browseCacheKey page limit genres) = (e.value, c) := by
        simp [TTLCache.get, he, hexp]
      rw [hget] at h
      simp only at h
      have hget2 : c.get now (browseCacheKey page limit genres) = (some r, c) := by
        rw [hget, h]
      have hdata : ((browse_anime jikan P fetch c now page limit genres).2).data =
          mutateValue c.data (browseCacheKey page limit genres)
            (fun v => { v with results := backfillPageBrowse jikan v.results }) := by
        simp [browse_anime, hget2]
      have hlook : lookupKey
          (mutateValue c.data (browseCacheKey page limit genres)
            (fun v => { v with results := backfillPageBrowse jikan v.results }))
          (browseCacheKey page limit genres) =
          some ⟨e.expiresAt,
            some { r with results := backfillPageBrowse jikan r.results }⟩ := by
        rw [lookupKey_mutateValue, he]
        simp [h]
      simp [TTLCache.get, hdata, hlook, hexp]

/-- C8 witness: the counterexample scenario, through the amended
theorem. -/
theorem browse_hit_mutates_cached_value_witness :
    (((browse_anime jikanHitC8 P0 (fun _ => browseStored) browseCacheC8
        0 1 20 []).2).get 0 (browseCacheKey 1 20 [])).1 =
      some { browseStored with
        results := backfillPageBrowse jikanHitC8 browseStored.results } :=
  browse_hit_mutates_cached_value jikanHitC8 P0 (fun _ => browseStored)
    browseCacheC8 0 1 20 [] browseStored rfl

/-! ## Claim C9 -/

-- Sum of a list bounded elementwise.
theorem list_sum_le_mul_length (l : List Nat) (m : Nat)
    (h : ∀ x ∈ l, x ≤ m) : l.sum ≤ m * l.length := by
  induction l with
  | nil => simp
  | cons a t ih =>
    simp only [List.sum_cons, List.length_cons]
    have ha := h a (List.mem_cons_self _ _)
    have ht := ih (fun x hx => h x (List.mem_cons_of_mem _ hx))
    nlinarith

-- The semaphore invariant of one page-level call: never more than
-- `semBound` items hold the semaphore, and each holds at most
-- `maxCallsPerItem` provider calls in flight.
theorem orch_invariant (n : Nat) (s : OrchState) (h : OrchReachable n s) :
    s.active.length ≤ semBound ∧ ∀ x ∈ s.active, x ≤ maxCallsPerItem := by
  induction h with
  | refl => exact ⟨by simp [OrchState.init, semBound], by simp [OrchState.init]⟩
  | tail hr hstep ih =>
    rcases hstep with ⟨p, a, k, hk, ha⟩ | ⟨p, a, b, c⟩ | ⟨p, a, b⟩
    · refine ⟨by simpa using ha, fun x hx => ?_⟩
      rcases List.mem_cons.mp hx with hxk | hxa
      · exact hxk ▸ hk
      · exact ih.2 x hxa
    · refine ⟨?_, fun x hx => ?_⟩
      · have := ih.1
        simpa using this
      · rcases List.mem_append.mp hx with hxa | hxb
        · exact ih.2 x (List.mem_append_left _ hxa)
        · rcases List.mem_cons.mp hxb with hxc | hxb2
          · have hc1 : c + 1 ≤ maxCallsPerItem :=
              ih.2 (c + 1) (List.mem_append_right _ (List.mem_cons_self _ _))
            omega
          · exact ih.2 x
              (List.mem_append_right _ (List.mem_cons_of_mem _ hxb2))
    · refine ⟨?_, fun x hx => ?_⟩
      · have := ih.1
        simp only [List.length_append, List.length_cons] at this ⊢
        omega
      · rcases List.mem_append.mp hx with hxa | hxb
        · exact ih.2 x (List.mem_append_left _ hxa)
        · exact ih.2 x
            (List.mem_append_right _ (List.mem_cons_of_mem _ hxb))

/-- C9 counterexample: the semaphore bounds concurrently-enriched items,
not provider calls — three items acquiring the semaphore and dispatching
their four provider tasks each put 12 provider calls in flight, exceeding
the claimed bound of 10. -/
theorem orch_calls_exceed_bound_counterexample :
    OrchReachable 3 ⟨0, [4, 4, 4]⟩ ∧
    semBound < OrchState.callsInFlight ⟨0, [4, 4, 4]⟩ := by
  refine ⟨?_, by decide⟩
  have s1 : OrchStep ⟨3, []⟩ ⟨2, [4]⟩ :=
    OrchStep.acquire 2 [] 4 (by decide) (by decide)
  have s2 : OrchStep ⟨2, [4]⟩ ⟨1, [4, 4]⟩ :=
    OrchStep.acquire 1 [4] 4 (by decide) (by decide)
  have s3 : OrchStep ⟨1, [4, 4]⟩ ⟨0, [4, 4, 4]⟩ :=
    OrchStep.acquire 0 [4, 4] 4 (by decide) (by decide)
  exact Relation.ReflTransGen.tail
    (Relation.ReflTransGen.tail (Relation.ReflTransGen.tail
      Relation.ReflTransGen.refl s1) s2) s3

/-- C9 (corrected): in every reachable state of a page-level enrichment
call, at most 10 entries are being enriched concurrently (the semaphore
bound), and hence at most `4 * 10 = 40` enrichment-provider calls are in
flight — the configured bound of 10 applies to items, not to provider
calls, which it bounds only times the per-item fan-out of 4. -/
theorem orch_bounded_concurrency (n : Nat) (s : OrchState)
    (h : OrchReachable n s) :
    s.active.length ≤ semBound ∧
    s.callsInFlight ≤ maxCallsPerItem * semBound := by
  have hinv := orch_invariant n s h
  refine ⟨hinv.1, ?_⟩
  calc s.callsInFlight ≤ maxCallsPerItem * s.active.length :=
        list_sum_le_mul_length s.active maxCallsPerItem hinv.2
    _ ≤ maxCallsPerItem * semBound :=
        Nat.mul_le_mul_left _ hinv.1

/-- C9 witness: the state reached by the counterexample trace — rebuilt
here so the two proofs stay independent — satisfies the amended bounds. -/
theorem orch_bounded_concurrency_witness :
    (⟨2, [4]⟩ : OrchState).active.length ≤ semBound ∧
    OrchState.callsInFlight ⟨2, [4]⟩ ≤ maxCallsPerItem * semBound :=
  orch_bounded_concurrency 3 ⟨2, [4]⟩
    (Relation.ReflTransGen.tail Relation.ReflTransGen.refl
      (OrchStep.acquire 2 [] 4 (by decide) (by decide)))

/-! ## Claim C4 -/

/-- C4 (confirmed): each of the four provider lookups collapses every
failure to absence — a transport error, any non-success HTTP status
(400-599, the range `raise_for_status` rejects), and an unparsable payload
all yield `None`; the catch-all handler means no exception ever reaches
the caller, by construction of the wrapped functions. -/
theorem providers_collapse_failures_to_absence (status : Nat)
    (body : Option Json) (h4 : 400 ≤ status) (h5 : status ≤ 599) :
    (get_jikan_image .transportError = none ∧
      get_jikan_image (.response status body) = none ∧
      (∀ s : Nat, get_jikan_image (.response s none) = none)) ∧
    (get_jikan_total_episodes .transportError = none ∧
      get_jikan_total_episodes (.response status body) = none ∧
      (∀ s : Nat, get_jikan_total_episodes (.response s none) = none)) ∧
    (get_anilist_score .transportError = none ∧
      get_anilist_score (.response status body) = none ∧
      (∀ s : Nat, get_anilist_score (.response s none) = none)) ∧
    (get_kitsu_age_rating .transportError = none ∧
      get_kitsu_age_rating (.response status body) = none ∧
      (∀ s : Nat, get_kitsu_age_rating (.response s none) = none)) := by
  have hrs : raiseForStatus status = .error () := by
    simp [raiseForStatus, h4, h5]
  refine ⟨⟨rfl, ?_, ?_⟩, ⟨rfl, ?_, ?_⟩, ⟨rfl, ?_, ?_⟩, ⟨rfl, ?_, ?_⟩⟩
  · simp [get_jikan_image, jikanImageBody, doRequest, hrs,
      Except.map, Except.bind, Bind.bind, Functor.map]
  · intro s
    by_cases hs : 400 ≤ s ∧ s ≤ 599 <;>
      simp [get_jikan_image, jikanImageBody, doRequest, raiseForStatus,
        parseJson, hs, Except.map, Except.bind, Bind.bind, Functor.map]
  · simp [get_jikan_total_episodes, jikanTotalEpisodesBody, doRequest, hrs,
      Except.map, Except.bind, Bind.bind, Functor.map]
  · intro s
    by_cases hs : 400 ≤ s ∧ s ≤ 599 <;>
      simp [get_jikan_total_episodes, jikanTotalEpisodesBody, doRequest,
        raiseForStatus, parseJson, hs, Except.map, Except.bind, Bind.bind,
        Functor.map]
  · simp [get_anilist_score, anilistScoreBody, doRequest, hrs,
      Except.map, Except.bind, Bind.bind, Functor.map]
  · intro s
    by_cases hs : 400 ≤ s ∧ s ≤ 599 <;>
      simp [get_anilist_score, anilistScoreBody, doRequest, raiseForStatus,
        parseJson, hs, Except.map, Except.bind, Bind.bind, Functor.map]
  · simp [get_kitsu_age_rating, kitsuAgeRatingBody, doRequest, hrs,
      Except.map, Except.bind, Bind.bind, Functor.map]
  · intro s
    by_cases hs : 400 ≤ s ∧ s ≤ 599 <;>
      simp [get_kitsu_age_rating, kitsuAgeRatingBody, doRequest,
        raiseForStatus, parseJson, hs, Except.map, Except.bind, Bind.bind,
        Functor.map]

/-- C4 witness: a 503 with an unparsable payload. -/
theorem providers_collapse_failures_to_absence_witness :
    (400 : Nat) ≤ 503 ∧ (503 : Nat) ≤ 599 ∧
    get_jikan_image (.response 503 none) = none ∧
    get_anilist_score .transportError = none := by
  refine ⟨by decide, by decide, ?_, ?_⟩
  · exact (providers_collapse_failures_to_absence 503 none (by decide)
      (by decide)).1.2.1
  · exact (providers_collapse_failures_to_absence 503 none (by decide)
      (by decide)).2.2.1.1

end AniCli
